import Mathlib

/-!
Verification development for the streaming chat client in `src/main.rs`
(RingCanary/mistral-chat-cli-rs).

The core under study is `ChatClient::chat_stream` (lines 199-313): a bounded
retry loop around an HTTP send, followed by a loop that consumes the byte
stream chunk by chunk, decodes each chunk lossily as UTF-8, splits it into
lines, and for each line prefixed by the SSE tag writes any decoded content
delta to stdout, terminating the per-chunk line loop on the sentinel.

The embedding below is byte-level and executable: chunks are lists of byte
values, the lossy UTF-8 decode mirrors the Rust standard library behavior
(one replacement character per maximal invalid subpart), line splitting
mirrors Rust `str::lines`, and a full RFC 8259 JSON parser stands in for
`serde_json::from_str::<Value>` together with the `Value` index/`as_str`
lookup used at `json["choices"][0]["delta"]["content"]`.
-/

namespace MistralChat

/-! ### Lossy UTF-8 decoding, mirroring `String::from_utf8_lossy` -/

/-- The Unicode replacement character U+FFFD, substituted by the lossy
decode for each maximal invalid subpart of the byte stream. -/
def replChar : Char := Char.ofNat 0xFFFD

/-- Whether a byte is a UTF-8 continuation byte (0x80-0xBF). -/
def contOK (b : Nat) : Bool := decide (0x80 ≤ b ∧ b ≤ 0xBF)

/-- Valid range for the second byte of a multi-byte UTF-8 sequence led by
`b`, as in the Rust standard library validation tables. -/
def b2OK (b b2 : Nat) : Bool :=
  if b = 0xE0 then decide (0xA0 ≤ b2 ∧ b2 ≤ 0xBF)
  else if b = 0xED then decide (0x80 ≤ b2 ∧ b2 ≤ 0x9F)
  else if b = 0xF0 then decide (0x90 ≤ b2 ∧ b2 ≤ 0xBF)
  else if b = 0xF4 then decide (0x80 ≤ b2 ∧ b2 ≤ 0x8F)
  else contOK b2

/-- Fueled lossy UTF-8 decoder. Each step consumes at least one byte, so
fuel equal to the byte count never runs out; the fuel argument only makes
the recursion structural. Invalid sequences are replaced following the
maximal-subpart policy of `String::from_utf8_lossy`: an invalid or
out-of-range byte after a valid lead consumes only the bytes up to it, and
a truncated sequence at end of input yields a single replacement char. -/
def utf8LossyF : Nat → List Nat → List Char
  | _, [] => []
  | 0, _ :: _ => []
  | fuel+1, b :: rest =>
    if b ≤ 0x7F then
      Char.ofNat b :: utf8LossyF fuel rest
    else if 0xC2 ≤ b ∧ b ≤ 0xDF then
      match rest with
      | [] => [replChar]
      | b2 :: rest2 =>
        if contOK b2 then
          Char.ofNat ((b - 0xC0) * 64 + (b2 - 0x80)) :: utf8LossyF fuel rest2
        else replChar :: utf8LossyF fuel rest
    else if 0xE0 ≤ b ∧ b ≤ 0xEF then
      match rest with
      | [] => [replChar]
      | b2 :: rest2 =>
        if b2OK b b2 then
          match rest2 with
          | [] => [replChar]
          | b3 :: rest3 =>
            if contOK b3 then
              Char.ofNat ((b - 0xE0) * 4096 + (b2 - 0x80) * 64 + (b3 - 0x80)) ::
                utf8LossyF fuel rest3
            else replChar :: utf8LossyF fuel rest2
        else replChar :: utf8LossyF fuel rest
    else if 0xF0 ≤ b ∧ b ≤ 0xF4 then
      match rest with
      | [] => [replChar]
      | b2 :: rest2 =>
        if b2OK b b2 then
          match rest2 with
          | [] => [replChar]
          | b3 :: rest3 =>
            if contOK b3 then
              match rest3 with
              | [] => [replChar]
              | b4 :: rest4 =>
                if contOK b4 then
                  Char.ofNat ((b - 0xF0) * 262144 + (b2 - 0x80) * 4096 +
                      (b3 - 0x80) * 64 + (b4 - 0x80)) :: utf8LossyF fuel rest4
                else replChar :: utf8LossyF fuel rest3
            else replChar :: utf8LossyF fuel rest2
        else replChar :: utf8LossyF fuel rest
    else
      replChar :: utf8LossyF fuel rest

/-- Rust `String::from_utf8_lossy` on a byte list: the chunk text used by
`chat_stream` at line 269 of the source. -/
def utf8Lossy (bytes : List Nat) : List Char := utf8LossyF bytes.length bytes

/-- Standard UTF-8 encoding of one character, used to relate character
positions to the byte positions that Rust string slicing works with. -/
def utf8EncodeChar (c : Char) : List Nat :=
  let n := c.toNat
  if n ≤ 0x7F then [n]
  else if n ≤ 0x7FF then [0xC0 + n / 64, 0x80 + n % 64]
  else if n ≤ 0xFFFF then [0xE0 + n / 4096, 0x80 + (n / 64) % 64, 0x80 + n % 64]
  else [0xF0 + n / 262144, 0x80 + (n / 4096) % 64, 0x80 + (n / 64) % 64, 0x80 + n % 64]

/-- UTF-8 encoding of a character sequence into bytes. -/
def utf8Encode (s : List Char) : List Nat := (s.map utf8EncodeChar).flatten

/-! ### Line splitting, mirroring Rust `str::lines` -/

/-- Accumulator-based splitter: `cur` holds the current line reversed.
A line feed terminates a line and a carriage return immediately before the
line feed is stripped; a final unterminated segment is yielded as-is, and
an empty final segment is not yielded. This is Rust `str::lines`. -/
def rustLinesAux : List Char → List Char → List (List Char)
  | cur, [] => if cur = [] then [] else [cur.reverse]
  | cur, c :: rest =>
    if c = '\n' then
      (match cur with
        | '\r' :: cur2 => cur2.reverse
        | _ => cur.reverse) :: rustLinesAux [] rest
    else
      rustLinesAux (c :: cur) rest

/-- Rust `text.lines()` as used at line 273 of the source. -/
def rustLines (s : List Char) : List (List Char) := rustLinesAux [] s

example : rustLines "a\nb".toList = ["a".toList, "b".toList] := by decide
example : rustLines "a\r\n".toList = ["a".toList] := by decide
example : rustLines "\n".toList = [[]] := by decide
example : rustLines [] = [] := by decide
example : rustLines "ab".toList = ["ab".toList] := by decide
example : utf8Lossy [0x61, 0xFF, 0x62] = ['a', replChar, 'b'] := by decide
example : utf8Lossy [0xC3, 0xA9] = [Char.ofNat 0xE9] := by decide
example : utf8Lossy [0xE2, 0x82, 0xAC] = [Char.ofNat 0x20AC] := by decide
example : utf8Lossy [0xF0, 0x9F, 0x92, 0x96] = [Char.ofNat 0x1F496] := by decide
example : utf8Lossy [0xF0, 0x28] = [replChar, '('] := by decide
example : utf8Lossy [0xE2, 0x82] = [replChar] := by decide
example : utf8Encode "aé".toList = [0x61, 0xC3, 0xA9] := by decide

/-! ### JSON values and parsing, modelling `serde_json::from_str::<Value>`

`serde_json` is an external crate; the parser below follows its documented
strict RFC 8259 behavior: a single top-level value with optional
surrounding whitespace, strict number grammar (no leading zeros, digits
required around the decimal point and in the exponent), strings with the
eight single-character escapes plus `\uXXXX` including surrogate pairs,
and an error on anything else. Numbers are kept as their raw text: no
claim ever extracts a numeric value, only whether parsing succeeds. -/

/-- JSON values. Object members are kept in parse order; on lookup the
last occurrence of a key wins, matching the overwrite-on-insert map
deserialization of `serde_json`. -/
inductive Json where
  | null
  | bool (b : Bool)
  | num (raw : List Char)
  | str (s : List Char)
  | arr (elems : List Json)
  | obj (members : List (List Char × Json))

/-- JSON whitespace: space, tab, line feed, carriage return. -/
def isWs (c : Char) : Bool := c = ' ' ∨ c = '\t' ∨ c = '\n' ∨ c = '\r'

/-- Drop leading JSON whitespace. -/
def skipWs : List Char → List Char
  | [] => []
  | c :: rest => if isWs c then skipWs rest else c :: rest

/-- Opening/closing curly bracket and double quote characters. -/
def lcb : Char := Char.ofNat 123
def rcb : Char := Char.ofNat 125
def dq : Char := Char.ofNat 34

/-- Value of one hexadecimal digit. -/
def hexVal (c : Char) : Option Nat :=
  if '0' ≤ c ∧ c ≤ '9' then some (c.toNat - '0'.toNat)
  else if 'a' ≤ c ∧ c ≤ 'f' then some (c.toNat - 'a'.toNat + 10)
  else if 'A' ≤ c ∧ c ≤ 'F' then some (c.toNat - 'A'.toNat + 10)
  else none

/-- Four hexadecimal digits, as in a `\uXXXX` escape. -/
def parseHex4 : List Char → Option (Nat × List Char)
  | c1 :: c2 :: c3 :: c4 :: rest =>
    match hexVal c1, hexVal c2, hexVal c3, hexVal c4 with
    | some h1, some h2, some h3, some h4 =>
      some (h1 * 4096 + h2 * 256 + h3 * 16 + h4, rest)
    | _, _, _, _ => none
  | _ => none

/-- The single-character string escapes of RFC 8259. -/
def escChar (c : Char) : Option Char :=
  if c = dq then some dq
  else if c = '\\' then some '\\'
  else if c = '/' then some '/'
  else if c = 'b' then some (Char.ofNat 8)
  else if c = 'f' then some (Char.ofNat 12)
  else if c = 'n' then some '\n'
  else if c = 'r' then some '\r'
  else if c = 't' then some '\t'
  else none

/-- Body of a JSON string after the opening quote: returns the decoded
content and the rest of the input after the closing quote. Unescaped
control characters and lone surrogate escapes are rejected, as in
`serde_json`. Fuel at least the input length never runs out. -/
def parseStringBody : Nat → List Char → Option (List Char × List Char)
  | 0, _ => none
  | _, [] => none
  | fuel+1, c :: rest =>
    if c = dq then some ([], rest)
    else if c = '\\' then
      match rest with
      | [] => none
      | 'u' :: r2 =>
        match parseHex4 r2 with
        | none => none
        | some (n, r3) =>
          if 0xD800 ≤ n ∧ n ≤ 0xDBFF then
            match r3 with
            | '\\' :: 'u' :: r4 =>
              match parseHex4 r4 with
              | none => none
              | some (m, r5) =>
                if 0xDC00 ≤ m ∧ m ≤ 0xDFFF then
                  match parseStringBody fuel r5 with
                  | some (cs, r6) =>
                    some (Char.ofNat (0x10000 + (n - 0xD800) * 1024 + (m - 0xDC00)) :: cs, r6)
                  | none => none
                else none
            | _ => none
          else if 0xDC00 ≤ n ∧ n ≤ 0xDFFF then none
          else
            match parseStringBody fuel r3 with
            | some (cs, r4) => some (Char.ofNat n :: cs, r4)
            | none => none
      | e :: r2 =>
        match escChar e with
        | some ec =>
          match parseStringBody fuel r2 with
          | some (cs, r3) => some (ec :: cs, r3)
          | none => none
        | none => none
    else if c.toNat < 0x20 then none
    else
      match parseStringBody fuel rest with
      | some (cs, r2) => some (c :: cs, r2)
      | none => none

/-- A complete JSON string starting at its opening quote is parsed by
supplying fuel from the input length. -/
def parseJString (s : List Char) : Option (List Char × List Char) :=
  parseStringBody (s.length + 1) s

/-- Maximal run of leading decimal digits. -/
def takeDigits : List Char → List Char × List Char
  | [] => ([], [])
  | c :: rest =>
    if c.isDigit then
      let (ds, r) := takeDigits rest
      (c :: ds, r)
    else ([], c :: rest)

/-- Integer part of a JSON number: a lone zero or a nonzero digit followed
by any digits (leading zeros rejected). -/
def parseIntPart : List Char → Option (List Char × List Char)
  | [] => none
  | c :: rest =>
    if c = '0' then some (['0'], rest)
    else if c.isDigit then
      let (ds, r) := takeDigits rest
      some (c :: ds, r)
    else none

/-- Optional fraction part: a decimal point must be followed by at least
one digit. -/
def parseFrac : List Char → Option (List Char × List Char)
  | '.' :: rest =>
    (match takeDigits rest with
      | ([], _) => none
      | (ds, r) => some ('.' :: ds, r))
  | s => some ([], s)

/-- Optional exponent part: `e`/`E`, optional sign, at least one digit. -/
def parseExp : List Char → Option (List Char × List Char)
  | [] => some ([], [])
  | c :: rest =>
    if c = 'e' ∨ c = 'E' then
      let (sgn, r1) :=
        match rest with
        | s :: r => if s = '+' ∨ s = '-' then ([s], r) else (([] : List Char), s :: r)
        | [] => ([], [])
      match takeDigits r1 with
      | ([], _) => none
      | (ds, r2) => some (c :: (sgn ++ ds), r2)
    else some ([], c :: rest)

/-- A JSON number token (kept as raw text), by the RFC 8259 grammar. -/
def parseNumber (s : List Char) : Option (List Char × List Char) :=
  let (neg, s1) :=
    match s with
    | '-' :: r => ((['-'] : List Char), r)
    | _ => ([], s)
  match parseIntPart s1 with
  | none => none
  | some (ip, s2) =>
    match parseFrac s2 with
    | none => none
    | some (fp, s3) =>
      match parseExp s3 with
      | none => none
      | some (ep, s4) => some (neg ++ ip ++ fp ++ ep, s4)

mutual

/-- One JSON value starting at a non-whitespace character. Fuel twice the
input length never runs out, since every unit of fuel spent accompanies at
least one character consumed at the position where it is spent. -/
def parseValue : Nat → List Char → Option (Json × List Char)
  | 0, _ => none
  | fuel+1, s =>
    match s with
    | [] => none
    | c :: rest =>
      if c = 'n' then
        match rest with
        | 'u' :: 'l' :: 'l' :: r => some (.null, r)
        | _ => none
      else if c = 't' then
        match rest with
        | 'r' :: 'u' :: 'e' :: r => some (.bool true, r)
        | _ => none
      else if c = 'f' then
        match rest with
        | 'a' :: 'l' :: 's' :: 'e' :: r => some (.bool false, r)
        | _ => none
      else if c = dq then
        match parseJString rest with
        | some (cs, r) => some (.str cs, r)
        | none => none
      else if c = '[' then
        match skipWs rest with
        | ']' :: r => some (.arr [], r)
        | r1 =>
          match parseElems fuel r1 with
          | some (xs, r2) => some (.arr xs, r2)
          | none => none
      else if c = lcb then
        match skipWs rest with
        | r1 =>
          if r1.head? = some rcb then some (.obj [], r1.tail)
          else
            match parseMembers fuel r1 with
            | some (kvs, r2) => some (.obj kvs, r2)
            | none => none
      else if c = '-' ∨ c.isDigit then
        match parseNumber (c :: rest) with
        | some (raw, r) => some (.num raw, r)
        | none => none
      else none

/-- Array elements after the opening bracket (nonempty case): value, then
either a comma and more elements or the closing bracket. -/
def parseElems : Nat → List Char → Option (List Json × List Char)
  | 0, _ => none
  | fuel+1, s =>
    match parseValue fuel s with
    | none => none
    | some (v, r1) =>
      match skipWs r1 with
      | ',' :: r2 =>
        (match parseElems fuel (skipWs r2) with
          | some (vs, r3) => some (v :: vs, r3)
          | none => none)
      | ']' :: r2 => some ([v], r2)
      | _ => none

/-- Object members after the opening brace (nonempty case): quoted key,
colon, value, then either a comma and more members or the closing brace. -/
def parseMembers : Nat → List Char → Option (List (List Char × Json) × List Char)
  | 0, _ => none
  | fuel+1, s =>
    match s with
    | c :: rest =>
      if c = dq then
        match parseJString rest with
        | none => none
        | some (k, r1) =>
          match skipWs r1 with
          | ':' :: r2 =>
            (match parseValue fuel (skipWs r2) with
              | none => none
              | some (v, r3) =>
                match skipWs r3 with
                | ',' :: r4 =>
                  (match parseMembers fuel (skipWs r4) with
                    | some (kvs, r5) => some ((k, v) :: kvs, r5)
                    | none => none)
                | r4 =>
                  if r4.head? = some rcb then some ([(k, v)], r4.tail)
                  else none)
          | _ => none
      else none
    | [] => none

end

/-- The call `serde_json::from_str::<serde_json::Value>`: one JSON value with
optional surrounding whitespace, nothing else. -/
def parseJson (s : List Char) : Option Json :=
  match parseValue (2 * s.length + 2) (skipWs s) with
  | some (j, rest) => if skipWs rest = [] then some j else none
  | none => none

/-! ### `Value` indexing and the content path -/

/-- Indexing `value[key]` for a string key: the member value on an object that has
the key (last occurrence wins), `Null` otherwise — never a failure, as
with the `Index` implementation of `serde_json::Value`. -/
def jGet (j : Json) (k : List Char) : Json :=
  match j with
  | .obj kvs =>
    match List.lookup k kvs.reverse with
    | some v => v
    | none => .null
  | _ => .null

/-- Indexing `value[i]` for a numeric index: the element on an array that is long
enough, `Null` otherwise. -/
def jIdx (j : Json) (i : Nat) : Json :=
  match j with
  | .arr xs => xs.getD i .null
  | _ => .null

/-- The call `Value::as_str`: the content of a string value, `None` otherwise. -/
def jAsStr (j : Json) : Option (List Char) :=
  match j with
  | .str s => some s
  | _ => none

/-- The lookup `json["choices"][0]["delta"]["content"].as_str()` from
line 287 of the source. -/
def contentOf (j : Json) : Option (List Char) :=
  jAsStr (jGet (jGet (jIdx (jGet j "choices".toList) 0) "delta".toList) "content".toList)

example : parseJson "\x7b\"a\":1\x7d".toList = some (.obj [("a".toList, .num ['1'])]) := by rfl
example : (parseJson "\x7b\"ch".toList).isNone = true := by rfl
example : (parseJson [] ).isNone = true := by rfl
example : (parseJson "[DONE]".toList).isNone = true := by rfl
example : (parseJson "01".toList).isNone = true := by rfl
example : parseJson " [1, 2] ".toList = some (.arr [.num ['1'], .num ['2']]) := by rfl
example : parseJson "\"a\\nb\"".toList = some (.str ['a', '\n', 'b']) := by rfl
example : parseJson "\"\\u0041\"".toList = some (.str ['A']) := by rfl
example :
    (parseJson "\x7b\"choices\":[\x7b\"delta\":\x7b\"content\":\"X\"\x7d\x7d]\x7d".toList).map contentOf
      = some (some ['X']) := by rfl
example : (parseJson "null".toList).map contentOf = some none := by rfl

/-! ### The per-line step of the chunk loop (source lines 273-302) -/

/-- The SSE tag `"data: "` checked by `line.starts_with("data: ")`. -/
def dataTag : List Char := "data: ".toList

/-- The termination sentinel `"[DONE]"`. -/
def doneTok : List Char := "[DONE]".toList

/-- What the body of the line loop does with one complete line: nothing,
write a content delta, or hit the sentinel (which writes the trailing
newline and breaks the line loop). -/
inductive LineAct where
  | skip
  | emit (s : List Char)
  | done
deriving DecidableEq, Repr

/-- One iteration of `for line in text.lines()`: lines without the
`data: ` tag are ignored; the payload is the line after the 6-byte tag;
the sentinel payload breaks; otherwise the payload is parsed as JSON and
a string at `choices[0].delta.content` is written, anything else being
silently skipped (source lines 273-302). -/
def lineAct (line : List Char) : LineAct :=
  if dataTag.isPrefixOf line then
    let data := line.drop 6
    if data = doneTok then .done
    else
      match parseJson data with
      | some json =>
        match contentOf json with
        | some content => .emit content
        | none => .skip
      | none => .skip
  else .skip

/-- The delta a line yields, if any. -/
def lineDelta (line : List Char) : Option (List Char) :=
  match lineAct line with
  | .emit s => some s
  | _ => none

/-- Whether a line is the sentinel line. -/
def isDoneLine (line : List Char) : Bool :=
  match lineAct line with
  | .done => true
  | _ => false

/-- Writes performed on stdout: a content delta (written and flushed at
lines 289-290) or the single newline written and flushed on the sentinel
(lines 280-281). -/
inductive OutEvent where
  | delta (s : List Char)
  | newline
deriving DecidableEq, Repr

/-- The line loop over the complete lines of one chunk: skipped lines
produce nothing, content lines produce a delta write, and the sentinel
produces the newline write and breaks out of this (and only this) loop. -/
def processLines : List (List Char) → List OutEvent
  | [] => []
  | l :: rest =>
    match lineAct l with
    | .skip => processLines rest
    | .emit s => .delta s :: processLines rest
    | .done => [.newline]

/-- Whether the line loop over these lines reaches the sentinel. -/
def linesSawDone : List (List Char) → Bool
  | [] => false
  | l :: rest =>
    match lineAct l with
    | .done => true
    | _ => linesSawDone rest

/-- Everything done with one `Ok` chunk: lossy UTF-8 decode, line split,
line loop. -/
def decodeChunk (bytes : List Nat) : List OutEvent :=
  processLines (rustLines (utf8Lossy bytes))

/-- The chunk loop (source lines 266-310): an errored chunk is only
debug-logged and skipped; an `Ok` chunk is decoded and its lines
processed; the loop always runs to the end of the stream. -/
def chatStreamEvents : List (Except String (List Nat)) → List OutEvent
  | [] => []
  | .error _ :: rest => chatStreamEvents rest
  | .ok bytes :: rest => decodeChunk bytes ++ chatStreamEvents rest

/-- Whether the stream ever reaches a sentinel line in an `Ok` chunk. -/
def sawDone : List (Except String (List Nat)) → Bool
  | [] => false
  | .error _ :: rest => sawDone rest
  | .ok bytes :: rest => linesSawDone (rustLines (utf8Lossy bytes)) || sawDone rest

/-- The value `chat_stream` returns once it holds the byte stream: the
body after the retry loop has no failure path other than a stdout write
error, and the output sink of the model is infallible, so the function
returns `Ok(())` for every chunk sequence; the events record what was
written on the way. -/
def chatStream (chunks : List (Except String (List Nat))) : Except String (List OutEvent) :=
  .ok (chatStreamEvents chunks)

/-- The bytes one write event puts on stdout. -/
def eventText : OutEvent → List Char
  | .delta s => s
  | .newline => ['\n']

/-- The full text printed to stdout by a run. -/
def printedOutput (evs : List OutEvent) : List Char := (evs.map eventText).flatten

/-- Declarative description of one chunk, used to state the ordering
claim: the deltas of the lines before the first sentinel line, in line
order, followed by the newline write when a sentinel line is present. -/
def chunkDeltasSpec (c : Except String (List Nat)) : List OutEvent :=
  match c with
  | .error _ => []
  | .ok bytes =>
    let ls := rustLines (utf8Lossy bytes)
    ((ls.takeWhile fun l => !isDoneLine l).filterMap lineDelta).map OutEvent.delta
      ++ (if ls.any isDoneLine then [OutEvent.newline] else [])

/-! ### The bounded retry loop (source lines 235-257) -/

/-- The retry loop around `client.post(...).send()`. The send is injected
as `issue`, mapping the zero-based call number to a transport result, so
the counter logic can be analyzed without a network: the source calls the
same closure each iteration and `attempts` equals the number of prior
calls when a call is made. `remaining` is `max_attempts - attempts`,
positive exactly when the guard `attempts < max_attempts` of the retry arm
holds; each retry adds the fixed 2-second sleep of line 251. Returns the
loop result together with the total number of calls made and the total
seconds slept. -/
def sendLoop {R : Type} (issue : Nat → Except String R) :
    Nat → Nat → Nat → Except String R × Nat × Nat
  | 0, attempts, slept =>
    (match issue attempts with
      | .ok r => (.ok r, attempts + 1, slept)
      | .error e => (.error e, attempts + 1, slept))
  | remaining+1, attempts, slept =>
    match issue attempts with
    | .ok r => (.ok r, attempts + 1, slept)
    | .error _ => sendLoop issue remaining (attempts + 1) (slept + 2)

/-- The retry loop with the source's initial state: `attempts = 0`,
`max_attempts = 3` (source lines 235-236). On exhaustion the last error is
returned wrapped in the multiple-attempts context (line 254). -/
def sendWithRetry {R : Type} (issue : Nat → Except String R) :
    Except String R × Nat × Nat :=
  sendLoop issue 3 0 0

/-- An HTTP response as the retry loop sees it: the loop never inspects
the status, it only distinguishes obtaining a response from a transport
error. -/
structure HttpResp where
  status : Nat
deriving DecidableEq, Repr

example : sendWithRetry (fun _ => (.error "refused" : Except String HttpResp))
    = (.error "refused", 4, 6) := by rfl
example : sendWithRetry (fun n => if n < 2 then .error "reset" else .ok (HttpResp.mk 200))
    = (.ok (HttpResp.mk 200), 3, 4) := by rfl
example : sendWithRetry (fun _ => (.ok (HttpResp.mk 500) : Except String HttpResp))
    = (.ok (HttpResp.mk 500), 1, 0) := by rfl

/-! ### Concrete stream fragments used in the claims -/

/-- The single complete SSE event line carrying the delta `"X"`,
terminated by a line feed. -/
def xLineBytes : List Nat :=
  utf8Encode "data: \x7b\"choices\":[\x7b\"delta\":\x7b\"content\":\"X\"\x7d\x7d]\x7d\n".toList

/-- A sentinel line chunk. -/
def doneLineBytes : List Nat := utf8Encode "data: [DONE]\n".toList

/-- The event line carrying the delta `"partial"`. -/
def pLineBytes : List Nat :=
  utf8Encode "data: \x7b\"choices\":[\x7b\"delta\":\x7b\"content\":\"partial\"\x7d\x7d]\x7d\n".toList

example : chatStreamEvents [.ok xLineBytes] = [.delta ['X']] := by rfl
example : chatStreamEvents [.ok doneLineBytes] = [.newline] := by rfl
example : chatStreamEvents [.ok (xLineBytes ++ doneLineBytes)] = [.delta ['X'], .newline] := by rfl
example : chatStreamEvents [.ok pLineBytes] = [.delta "partial".toList] := by rfl
example : chatStreamEvents [.ok (xLineBytes.take 10), .ok (xLineBytes.drop 10)] = [] := by rfl

/-! ### Structural lemmas about the loops -/

/-- The imperative line loop equals its declarative description: the
deltas of the lines before the first sentinel line, in order, then the
newline write exactly when a sentinel line is present. -/
theorem processLines_eq (ls : List (List Char)) :
    processLines ls =
      ((ls.takeWhile fun l => !isDoneLine l).filterMap lineDelta).map OutEvent.delta
        ++ (if ls.any isDoneLine then [OutEvent.newline] else []) := by
  induction ls with
  | nil => simp [processLines]
  | cons l rest ih =>
    cases h : lineAct l with
    | skip =>
      simp [processLines, h, isDoneLine, lineDelta, List.takeWhile_cons, List.filterMap_cons, ih]
    | emit s =>
      simp [processLines, h, isDoneLine, lineDelta, List.takeWhile_cons, List.filterMap_cons, ih]
    | done =>
      simp [processLines, h, isDoneLine, List.takeWhile_cons]

/-- The newline write appears in the output of the line loop exactly when
the loop reaches a sentinel line. -/
theorem newline_mem_processLines (ls : List (List Char)) :
    OutEvent.newline ∈ processLines ls ↔ linesSawDone ls = true := by
  induction ls with
  | nil => simp [processLines, linesSawDone]
  | cons l rest ih =>
    cases h : lineAct l with
    | skip => simpa [processLines, h, linesSawDone] using ih
    | emit s => simpa [processLines, h, linesSawDone] using ih
    | done => simp [processLines, h, linesSawDone]

/-- The newline write appears in the output of a whole run exactly when
some chunk of the stream contains a sentinel line. -/
theorem newline_mem_chatStreamEvents (chunks : List (Except String (List Nat))) :
    OutEvent.newline ∈ chatStreamEvents chunks ↔ sawDone chunks = true := by
  induction chunks with
  | nil => simp [chatStreamEvents, sawDone]
  | cons c rest ih =>
    cases c with
    | error e => simpa [chatStreamEvents, sawDone] using ih
    | ok bytes =>
      simp [chatStreamEvents, sawDone, decodeChunk, List.mem_append, ih,
        newline_mem_processLines]

/-- The loop makes at most `remaining + 1` further calls. -/
theorem sendLoop_calls_le {R : Type} (issue : Nat → Except String R) :
    ∀ remaining attempts slept,
      (sendLoop issue remaining attempts slept).2.1 ≤ attempts + remaining + 1 := by
  intro remaining
  induction remaining with
  | zero =>
    intro attempts slept
    cases h : issue attempts <;> simp [sendLoop, h]
  | succ n ih =>
    intro attempts slept
    cases h : issue attempts with
    | ok r =>
      simp only [sendLoop, h]
      omega
    | error e =>
      have := ih (attempts + 1) (slept + 2)
      simp only [sendLoop, h]
      omega

/-- A successful call returns at once from any loop state. -/
theorem sendLoop_ok {R : Type} (issue : Nat → Except String R)
    (remaining attempts slept : Nat) (r : R) (h : issue attempts = .ok r) :
    sendLoop issue remaining attempts slept = (.ok r, attempts + 1, slept) := by
  cases remaining <;> simp [sendLoop, h]

/-- A failed call with retries remaining increments the counter and adds
the fixed 2-second sleep. -/
theorem sendLoop_err_step {R : Type} (issue : Nat → Except String R)
    (remaining attempts slept : Nat) (e : String) (h : issue attempts = .error e) :
    sendLoop issue (remaining + 1) attempts slept
      = sendLoop issue remaining (attempts + 1) (slept + 2) := by
  simp [sendLoop, h]

/-- A failed call with no retries remaining returns the error. -/
theorem sendLoop_err_stop {R : Type} (issue : Nat → Except String R)
    (attempts slept : Nat) (e : String) (h : issue attempts = .error e) :
    sendLoop issue 0 attempts slept = (.error e, attempts + 1, slept) := by
  simp [sendLoop, h]

/-- UTF-8 encoding distributes over concatenation. -/
theorem utf8Encode_append (s t : List Char) :
    utf8Encode (s ++ t) = utf8Encode s ++ utf8Encode t := by
  simp [utf8Encode]

/-- A byte that can lead no UTF-8 sequence (a stray continuation byte, an
overlong lead 0xC0/0xC1, or a lead above 0xF4) decodes to one replacement
character and decoding continues with the remaining bytes. -/
theorem utf8LossyF_invalid_lead (fuel b : Nat) (rest : List Nat)
    (h1 : ¬ b ≤ 0x7F) (h2 : ¬ (0xC2 ≤ b ∧ b ≤ 0xDF))
    (h3 : ¬ (0xE0 ≤ b ∧ b ≤ 0xEF)) (h4 : ¬ (0xF0 ≤ b ∧ b ≤ 0xF4)) :
    utf8LossyF (fuel + 1) (b :: rest) = replChar :: utf8LossyF fuel rest := by
  rw [utf8LossyF.eq_def]
  simp only [if_neg h1, if_neg h2, if_neg h3, if_neg h4]

/-! ### The claims -/

/-- Claim C1: the claim says the streaming decoder buffers a trailing
partial line across chunk boundaries, so that the single event line
carrying the delta X, split at an arbitrary byte offset across two
consecutive chunks, still yields the delta X exactly once. The code keeps
no buffer between chunks: split at byte offset 10, the first fragment is
parsed as a complete line whose payload is invalid JSON and is skipped,
and the second fragment lacks the `data: ` tag and is skipped, so the
delta is emitted zero times, while the unsplit line emits it once. -/
theorem c1_split_line_not_reassembled :
    chatStreamEvents [.ok (xLineBytes.take 10), .ok (xLineBytes.drop 10)] = []
      ∧ chatStreamEvents [.ok xLineBytes] = [.delta ['X']]
      ∧ ([] : List OutEvent) ≠ [.delta ['X']] := by
  exact ⟨rfl, rfl, by decide⟩

/-- Claim C2, counterexample: against a send that always fails at the
transport level, the loop issues the request 4 times (the initial attempt
plus the 3 retries allowed by the guard `attempts < max_attempts`) and
sleeps 3 times 2 seconds = 6 seconds, not 3 attempts and about 4 seconds
as claimed. -/
theorem c2_three_attempts_counterexample :
    sendWithRetry (fun _ => (.error "connection refused" : Except String HttpResp))
        = (.error "connection refused", 4, 6)
      ∧ (4 : Nat) ≠ 3 ∧ (6 : Nat) ≠ 4 := by
  exact ⟨rfl, by decide, by decide⟩

/-- Claim C2 as amended: the sender issues the request at most 4 times in
total. If the send fails transport-level on the first two calls and
succeeds on the third, the successful result is returned after 3 calls
and 4 seconds of fixed delay; if every call fails, the sender returns the
last error after exactly 4 calls, having slept a fixed 2 seconds between
consecutive calls, 6 seconds in total. -/
theorem c2_retry_bound_amended (issue : Nat → Except String HttpResp)
    (r : HttpResp) (es : Nat → String) :
    (issue 0 = .error (es 0) → issue 1 = .error (es 1) → issue 2 = .ok r →
      sendWithRetry issue = (.ok r, 3, 4))
      ∧ ((∀ n, issue n = .error (es n)) → sendWithRetry issue = (.error (es 3), 4, 6))
      ∧ (sendWithRetry issue).2.1 ≤ 4 := by
  refine ⟨fun h0 h1 h2 => ?_, fun hall => ?_, ?_⟩
  · calc sendWithRetry issue = sendLoop issue 3 0 0 := rfl
      _ = sendLoop issue 2 1 2 := sendLoop_err_step issue 2 0 0 (es 0) h0
      _ = sendLoop issue 1 2 4 := sendLoop_err_step issue 1 1 2 (es 1) h1
      _ = (.ok r, 3, 4) := sendLoop_ok issue 1 2 4 r h2
  · calc sendWithRetry issue = sendLoop issue 3 0 0 := rfl
      _ = sendLoop issue 2 1 2 := sendLoop_err_step issue 2 0 0 (es 0) (hall 0)
      _ = sendLoop issue 1 2 4 := sendLoop_err_step issue 1 1 2 (es 1) (hall 1)
      _ = sendLoop issue 0 3 6 := sendLoop_err_step issue 0 2 4 (es 2) (hall 2)
      _ = (.error (es 3), 4, 6) := sendLoop_err_stop issue 3 6 (es 3) (hall 3)
  · have := sendLoop_calls_le issue 3 0 0
    simpa [sendWithRetry] using this

/-- Witness for the amended C2 at concrete senders: fail-twice-then-ok and
always-fail. -/
theorem c2_retry_bound_amended_witness :
    sendWithRetry (fun n => if n < 2 then (.error "reset" : Except String HttpResp)
        else .ok (HttpResp.mk 200)) = (.ok (HttpResp.mk 200), 3, 4)
      ∧ sendWithRetry (fun _ => (.error "reset" : Except String HttpResp))
        = (.error "reset", 4, 6) := by
  refine ⟨(c2_retry_bound_amended _ (HttpResp.mk 200) (fun _ => "reset")).1 rfl rfl rfl, ?_⟩
  exact (c2_retry_bound_amended _ (HttpResp.mk 200) (fun _ => "reset")).2.1 (fun _ => rfl)

/-- Claim C3: the claim says a decoded `[DONE]` sentinel terminates the
whole stream, with no line of any later chunk processed and no further
delta emitted. In the code the sentinel only breaks the per-chunk line
loop (lines within the same chunk after the sentinel are indeed dropped),
while the chunk loop continues: a later chunk carrying the delta X is
processed and X is emitted after the sentinel. -/
theorem c3_sentinel_breaks_only_line_loop :
    chatStreamEvents [.ok doneLineBytes, .ok xLineBytes] = [.newline, .delta ['X']]
      ∧ chatStreamEvents [.ok (doneLineBytes ++ xLineBytes)] = [.newline] := by
  exact ⟨rfl, rfl⟩

/-- Claim C4, counterexample: a stream that ends after the delta
`partial` with no sentinel prints `partial` with no trailing newline
(the claim and the spec scenario say `partial` followed by a newline);
the call still returns success. -/
theorem c4_no_trailing_newline_counterexample :
    printedOutput (chatStreamEvents [.ok pLineBytes]) = "partial".toList
      ∧ printedOutput (chatStreamEvents [.ok pLineBytes]) ≠ ("partial".toList ++ ['\n'])
      ∧ chatStream [.ok pLineBytes] = .ok [.delta "partial".toList] := by
  exact ⟨rfl, by decide, rfl⟩

/-- Claim C4 as amended: the trailing newline is written exactly on the
sentinel outcome — a newline write appears in the output if and only if
some chunk of the stream contains a sentinel line. When the transport
stream ends without a sentinel nothing more is printed and the call
returns success: the `partial` scenario prints `partial` with no trailing
newline and no error. -/
theorem c4_trailing_newline_amended :
    (∀ chunks, OutEvent.newline ∈ chatStreamEvents chunks ↔ sawDone chunks = true)
      ∧ printedOutput (chatStreamEvents [.ok pLineBytes]) = "partial".toList
      ∧ chatStream [.ok pLineBytes] = .ok [.delta "partial".toList]
      ∧ chatStreamEvents [.ok doneLineBytes] = [.newline] := by
  exact ⟨newline_mem_chatStreamEvents, rfl, rfl, rfl⟩

/-- Claim C5: decode anomalies never surface as errors and never emit a
delta. A line without the `data: ` tag is skipped; a tagged line whose
payload is not the sentinel and fails to parse as JSON is skipped; a
tagged line whose payload parses but has no string at
`choices[0].delta.content` is skipped; and a malformed byte (a stray
continuation byte, an overlong lead 0xC0/0xC1, or an out-of-range lead
0xF5-0xFF) decodes to the replacement character and decoding continues,
never failing. The line step is total with no error outcome. -/
theorem c5_decode_anomalies_skipped (line : List Char) (bytes : List Nat) :
    (dataTag.isPrefixOf line = false → lineAct line = .skip)
      ∧ (line.drop 6 ≠ doneTok → parseJson (line.drop 6) = none → lineAct line = .skip)
      ∧ (∀ j, parseJson (line.drop 6) = some j → contentOf j = none → lineAct line = .skip)
      ∧ (∀ b, (0x80 ≤ b ∧ b ≤ 0xC1) ∨ (0xF5 ≤ b ∧ b ≤ 0xFF) →
          utf8Lossy (b :: bytes) = replChar :: utf8Lossy bytes) := by
  refine ⟨fun h => ?_, fun hd hp => ?_, fun j hp hc => ?_, fun b hb => ?_⟩
  · simp [lineAct, h]
  · cases hpre : dataTag.isPrefixOf line with
    | false => simp [lineAct, hpre]
    | true => simp [lineAct, hpre, hd, hp]
  · cases hpre : dataTag.isPrefixOf line with
    | false => simp [lineAct, hpre]
    | true =>
      have hd : line.drop 6 ≠ doneTok := by
        intro he
        rw [he] at hp
        have : (parseJson doneTok).isNone = true := by rfl
        rw [hp] at this
        simp at this
      simp [lineAct, hpre, hd, hp, hc]
  · have h1 : ¬ b ≤ 0x7F := by omega
    have h2 : ¬ (0xC2 ≤ b ∧ b ≤ 0xDF) := by omega
    have h3 : ¬ (0xE0 ≤ b ∧ b ≤ 0xEF) := by omega
    have h4 : ¬ (0xF0 ≤ b ∧ b ≤ 0xF4) := by omega
    show utf8LossyF (bytes.length + 1) (b :: bytes) = replChar :: utf8Lossy bytes
    rw [utf8LossyF_invalid_lead bytes.length b bytes h1 h2 h3 h4]
    rfl

/-- Witness for C5 at concrete anomalous inputs: an SSE comment line, a
tagged line with an unparsable payload, a tagged line whose payload is
valid JSON without the content path, and a stray continuation byte. -/
theorem c5_decode_anomalies_skipped_witness :
    lineAct ": keep-alive".toList = .skip
      ∧ lineAct "data: not json".toList = .skip
      ∧ lineAct "data: \x7b\"choices\":[]\x7d".toList = .skip
      ∧ utf8Lossy [0x80] = [replChar] := by
  refine ⟨(c5_decode_anomalies_skipped _ []).1 (by rfl),
    (c5_decode_anomalies_skipped _ []).2.1 (by decide) (by rfl),
    (c5_decode_anomalies_skipped _ []).2.2.1 (Json.obj [("choices".toList, Json.arr [])])
      (by rfl) (by rfl), ?_⟩
  exact (c5_decode_anomalies_skipped [] []).2.2.2 0x80 (Or.inl (by omega))

/-- Claim C6: the retry loop retries only transport-level failures; a
send that obtains a response is returned to the caller at once as the
successful transport result, whatever its HTTP status. With a first call
yielding a response with a non-2xx status, the loop returns it as `Ok`
after exactly one call with no sleep. -/
theorem c6_no_retry_on_http_status (issue : Nat → Except String HttpResp)
    (resp : HttpResp) (h : issue 0 = .ok resp)
    (_hs : ¬ (200 ≤ resp.status ∧ resp.status ≤ 299)) :
    sendWithRetry issue = (.ok resp, 1, 0) := by
  calc sendWithRetry issue = sendLoop issue 3 0 0 := rfl
    _ = (.ok resp, 1, 0) := sendLoop_ok issue 3 0 0 resp h

/-- Witness for C6 at a sender that immediately returns a 404 response. -/
theorem c6_no_retry_on_http_status_witness :
    sendWithRetry (fun _ => (.ok (HttpResp.mk 404) : Except String HttpResp))
      = (.ok (HttpResp.mk 404), 1, 0) :=
  c6_no_retry_on_http_status _ (HttpResp.mk 404) rfl (by decide)

/-- Claim C7: deltas are emitted in exactly the order their bytes
appeared in the stream, one delta per `data: ` line with a content
string, with no reordering and no deduplication: the run equals, chunk by
chunk in stream order, the order-preserving `filterMap` of the per-line
delta over the lines before the first sentinel line (followed by the
newline write when a sentinel is present). A chunk holding the same event
line twice emits the equal delta twice, in order. -/
theorem c7_deltas_in_order :
    (∀ chunks, chatStreamEvents chunks = (chunks.map chunkDeltasSpec).flatten)
      ∧ chatStreamEvents [.ok (xLineBytes ++ xLineBytes)] = [.delta ['X'], .delta ['X']] := by
  refine ⟨fun chunks => ?_, rfl⟩
  induction chunks with
  | nil => simp [chatStreamEvents]
  | cons c rest ih =>
    cases c with
    | error e => simp [chatStreamEvents, chunkDeltasSpec, ih]
    | ok bytes =>
      simp [chatStreamEvents, chunkDeltasSpec, decodeChunk, ih, processLines_eq]

/-- Claim C8: decoding is deterministic — two runs of the decoder over
the identical complete chunk sequence, each from fresh state, produce the
identical event sequence and the identical termination outcome. -/
theorem c8_decode_deterministic (chunks : List (Except String (List Nat)))
    (r1 r2 : List OutEvent × Bool)
    (h1 : r1 = (chatStreamEvents chunks, sawDone chunks))
    (h2 : r2 = (chatStreamEvents chunks, sawDone chunks)) : r1 = r2 := by
  rw [h1, h2]

/-- Witness for C8: two fresh runs over the same concrete stream agree. -/
theorem c8_decode_deterministic_witness :
    (([OutEvent.delta ['X'], OutEvent.newline], true) : List OutEvent × Bool)
      = (([OutEvent.delta ['X'], OutEvent.newline], true) : List OutEvent × Bool) :=
  c8_decode_deterministic [.ok xLineBytes, .ok doneLineBytes] _ _ rfl rfl

/-- Claim C9: a transport error on a chunk mid-stream is never fatal and
never surfaces: the errored chunk contributes nothing and changes no
state, decoding continues with the next chunk, and the call returns
success even when every chunk of the stream errors. -/
theorem c9_chunk_errors_skipped :
    (∀ e rest, chatStreamEvents (.error e :: rest) = chatStreamEvents rest
        ∧ sawDone (.error e :: rest) = sawDone rest
        ∧ chatStream (.error e :: rest) = chatStream rest)
      ∧ (∀ n, chatStream (List.replicate n (.error "broken pipe")) = .ok []) := by
  refine ⟨fun e rest => ⟨rfl, rfl, rfl⟩, fun n => ?_⟩
  induction n with
  | zero => rfl
  | succ m ih => simpa [List.replicate_succ, chatStream, chatStreamEvents] using ih

/-- Claim C10: the payload slice `&line[6..]` is evaluated only behind
the `starts_with("data: ")` guard; under that guard the line is the
6-byte tag followed by the payload, so in the UTF-8 bytes Rust slices,
index 6 is in bounds and falls exactly on the boundary after the tag. For
the edge line that is exactly `data: `, the payload is empty, which is
not the sentinel and fails to parse as JSON, so the line is skipped with
no delta. -/
theorem c10_prefix_slice_safe (line : List Char)
    (h : dataTag.isPrefixOf line = true) :
    utf8Encode line = utf8Encode dataTag ++ utf8Encode (line.drop 6)
      ∧ (utf8Encode dataTag).length = 6
      ∧ 6 ≤ (utf8Encode line).length
      ∧ lineAct dataTag = .skip
      ∧ lineDelta dataTag = none := by
  obtain ⟨t, ht⟩ := List.isPrefixOf_iff_prefix.mp h
  have hlen : dataTag.length = 6 := by rfl
  have hdrop : line.drop 6 = t := by
    rw [← ht, ← hlen, List.drop_left]
  refine ⟨?_, by rfl, ?_, by rfl, by rfl⟩
  · rw [hdrop, ← ht, utf8Encode_append]
  · rw [← ht, utf8Encode_append]
    have h6 : (utf8Encode dataTag).length = 6 := by rfl
    simp only [List.length_append]
    omega

/-- Witness for C10 at the edge line that is exactly the tag. -/
theorem c10_prefix_slice_safe_witness :
    utf8Encode "data: ".toList
        = utf8Encode dataTag ++ utf8Encode (("data: ".toList).drop 6)
      ∧ lineAct dataTag = .skip :=
  ⟨(c10_prefix_slice_safe "data: ".toList (by rfl)).1,
   (c10_prefix_slice_safe "data: ".toList (by rfl)).2.2.2.1⟩

end MistralChat
